import Mathlib

/-!
Verification of the p2p-claude-code encrypted RPC transport and session layer.

This development shallowly embeds the TypeScript sources:
  - `src/daemon/encryption.ts` (AES-256-GCM envelope codec),
  - `src/client/rpc.ts` (`RpcClient`: line framer, request correlator,
    timeouts, reconnection backoff),
  - `src/daemon/dht.ts` (`DhtServer`: server-side line framer and request
    handler),
  - `src/daemon/daemon.ts` (`Daemon`: session registry, output buffering,
    directory-restriction policy).

JavaScript strings are modelled as `List Char` (`JStr`), so that splitting,
trimming and prefix tests compute in the kernel.  External library
primitives that are not part of the repository (node:crypto AES-GCM,
`JSON.stringify`/`JSON.parse`, base64) are abstracted as parameters, with
their documented behaviour taken as hypotheses where a claim needs it.
Stateful code is embedded as explicit state passing: the mutable fields of
`RpcClient` become a `ClientState` record and the event-driven callbacks
(`socket.on(...)`, timer expiry) become a step function over an event trace.
-/

/-- JavaScript string, modelled as its list of characters. -/
abbrev JStr := List Char

/-- Byte sequence (each entry a byte value); models a Node `Buffer`. -/
abbrev Bytes := List Nat

/-- JavaScript `String.prototype.split` with a single-character separator:
`splitOnChar c s` returns the (possibly empty) segments of `s` between
occurrences of `c`.  Always returns at least one segment. -/
def splitOnChar (c : Char) : JStr → List JStr
  | [] => [[]]
  | x :: xs =>
    let rest := splitOnChar c xs
    if x = c then [] :: rest
    else
      match rest with
      | [] => [[x]]
      | r :: rs => (x :: r) :: rs

/-- JavaScript `String.prototype.trim`: strip leading and trailing
whitespace. -/
def trimChars (s : JStr) : JStr :=
  ((s.dropWhile Char.isWhitespace).reverse.dropWhile Char.isWhitespace).reverse

namespace Encryption

/-- The primitives `Encryption` (src/daemon/encryption.ts) delegates to.
They live outside the repository (node:crypto, `JSON`, base64 transport
encoding), so they are abstracted: `gcmEncrypt nonce pt` is AES-256-GCM
under the key fixed at construction, returning `(ciphertext, authTag)`;
`gcmDecrypt nonce ct tag` returns the plaintext or fails when the tag does
not verify.  `V` is the type of JSON-serializable structured values, `B`
the transport encoding (base64 text in the source). -/
structure CryptoPrims (V B : Type) where
  stringify : V → Bytes
  parseJson : Bytes → Option V
  gcmEncrypt : Bytes → Bytes → Bytes × Bytes
  gcmDecrypt : Bytes → Bytes → Bytes → Option Bytes
  b64encode : Bytes → B
  b64decode : B → Bytes

/-- `Encryption.encrypt` (src/daemon/encryption.ts lines 21-36): JSON-encode
the value, AES-256-GCM encrypt it under a fresh 96-bit nonce, and bundle
`version(1 byte = 0) ++ nonce(12) ++ ciphertext ++ authTag(16)`,
base64-encoded.  The nonce is a parameter here because `randomBytes` is
external randomness. -/
def encrypt {V B : Type} (api : CryptoPrims V B) (nonce : Bytes) (v : V) : B :=
  let plaintext := api.stringify v
  let enc := api.gcmEncrypt nonce plaintext
  api.b64encode (0 :: (nonce ++ enc.1 ++ enc.2))

/-- `Encryption.decrypt` (src/daemon/encryption.ts lines 41-62): base64
decode, reject bundles shorter than 29 bytes, reject an unknown version
byte, split off nonce `[1,13)`, authTag `[len-16,len)` and ciphertext
`[13,len-16)`, GCM-decrypt and JSON-parse.  Thrown errors become
`Except.error`. -/
def decrypt {V B : Type} (api : CryptoPrims V B) (blob : B) : Except String V :=
  let bundle := api.b64decode blob
  if bundle.length < 29 then Except.error "Encrypted bundle too short"
  else if bundle.headD 0 ≠ 0 then Except.error "Unknown encryption version"
  else
    let nonce := (bundle.drop 1).take 12
    let authTag := bundle.drop (bundle.length - 16)
    let ciphertext := (bundle.drop 13).take (bundle.length - 16 - 13)
    match api.gcmDecrypt nonce ciphertext authTag with
    | none => Except.error "Unable to authenticate data"
    | some plaintext =>
      match api.parseJson plaintext with
      | none => Except.error "Invalid JSON in decrypted payload"
      | some v => Except.ok v

end Encryption

/-- Concrete instantiation of the external primitives used by the round-trip
witness: values are booleans, the transport encoding is the identity on byte
lists, GCM is a stand-in whose ciphertext is the plaintext with an all-zero
16-byte tag.  It satisfies every hypothesis of the round-trip theorem. -/
def witCrypto : Encryption.CryptoPrims Bool Bytes where
  stringify := fun b => [if b then 1 else 0]
  parseJson := fun l =>
    match l with
    | [1] => some true
    | [0] => some false
    | _ => none
  gcmEncrypt := fun _ pt => (pt, List.replicate 16 0)
  gcmDecrypt := fun _ ct _ => some ct
  b64encode := id
  b64decode := id

/-- Wire-format response object as read by the client
(`{id, ok, result?, error?}`, src/types.ts).  `result` and `error` are the
base64 envelope / error message strings; `none` models an absent field. -/
structure RpcResponse where
  id : JStr
  ok : Bool
  result : Option JStr
  error : Option JStr
deriving DecidableEq

/-- Wire-format request object as read by the server
(`{id, method, params}`, src/types.ts). -/
structure RpcRequest where
  id : JStr
  method : JStr
  params : JStr
deriving DecidableEq

/-- Settlement of one `call()` promise. `value`/`emptyValue` are
resolutions, the rest are rejections: `rpcError` is the peer-reported
failure, `timedOut` the local timeout, `connectionClosed` the
connection-loss rejection, `writeFailed` the raw error re-thrown by a
failing `socket.write`, `connectFailed` the raw error with which an
awaited `ensureConnected()` rejected (the DHT socket's `'error'` event,
the 10 s `Connection timeout`, or `Client has been destroyed`), and
`destroyed` the raw `Error('Client destroyed')` that `destroy()` uses to
reject every still-pending call. -/
inductive Outcome (V : Type) where
  | value (v : V)
  | emptyValue
  | rpcError (msg : JStr)
  | timedOut
  | connectionClosed
  | writeFailed (msg : JStr)
  | connectFailed (msg : JStr)
  | destroyed
deriving DecidableEq

namespace RpcClient

/-- JavaScript `response.error || 'RPC failed'`: an absent or empty (falsy)
error string is replaced by the default message. -/
def errorOrDefault (e : Option JStr) : JStr :=
  match e with
  | none => "RPC failed".data
  | some m => if m = [] then "RPC failed".data else m

/-- JavaScript truthiness of the `response.result` string: `some env` when
the field is present and non-empty, `none` when absent or the empty
string. -/
def truthyResult (r : Option JStr) : Option JStr :=
  match r with
  | none => none
  | some env => if env = [] then none else some env

/-- Mutable state of an `RpcClient` (src/client/rpc.ts) relevant to the
correlator: `pending` is the key set of the `pendingRequests` map, `timers`
the per-call timeouts that have been created and neither fired nor been
cancelled with `clearTimeout`, `settled` the log of promise settlements
(a JavaScript promise settles at most once, so only the first settlement
per request id is recorded), and `buffer` the partial-line accumulator. -/
structure ClientState (V : Type) where
  pending : List JStr
  timers : List JStr
  settled : List (JStr × Outcome V)
  buffer : JStr

/-- State at construction: no pending calls, no timers, empty buffer. -/
def initClient (V : Type) : ClientState V := ⟨[], [], [], []⟩

/-- Settle the promise of request `id`: a promise resolves or rejects at
most once, so a second settlement for the same id is a no-op. -/
def settleOnce {V : Type} (st : List (JStr × Outcome V)) (id : JStr)
    (o : Outcome V) : List (JStr × Outcome V) :=
  if (List.lookup id st).isSome then st else st ++ [(id, o)]

/-- Body of the `for (const line of lines)` loop in
`RpcClient.processBuffer` (src/client/rpc.ts lines 241-261): skip blank
lines, ignore lines `JSON.parse` rejects (`parse line = none`), look the
response id up among pending requests, and on a match delete the entry,
cancel its timer, and settle: peer error (with default message), decrypted
result, or empty object when `result` is absent or falsy.  When
`encryption.decrypt` throws (`decrypt env = none`) the exception is
swallowed by the surrounding catch after the entry was already removed, so
nothing is settled. -/
def processLine {V : Type} (parse : JStr → Option RpcResponse)
    (decrypt : JStr → Option V) (s : ClientState V) (line : JStr) :
    ClientState V :=
  if trimChars line = [] then s
  else
    match parse line with
    | none => s
    | some r =>
      if r.id ∈ s.pending then
        let s1 : ClientState V :=
          { s with pending := s.pending.erase r.id,
                   timers := s.timers.erase r.id }
        if r.ok = false then
          let o := Outcome.rpcError (V := V) (errorOrDefault r.error)
          { s1 with settled := settleOnce s1.settled r.id o }
        else
          match truthyResult r.result with
          | some env =>
            match decrypt env with
            | some v =>
              { s1 with settled := settleOnce s1.settled r.id (Outcome.value v) }
            | none => s1
          | none =>
            { s1 with settled := settleOnce s1.settled r.id Outcome.emptyValue }
      else s

/-- The complete-line loop of `RpcClient.processBuffer`, folded over a list
of lines in arrival order. -/
def processLines {V : Type} (parse : JStr → Option RpcResponse)
    (decrypt : JStr → Option V) (s : ClientState V) (lines : List JStr) :
    ClientState V :=
  lines.foldl (processLine parse decrypt) s

/-- `RpcClient.processBuffer` reached from the `socket.on('data')` handler
(src/client/rpc.ts lines 167-170 and 237-262): append the chunk to the
accumulator, split on newlines, keep the trailing partial segment as the
new accumulator (`lines.pop() || ''`), and process every complete line. -/
def processBuffer {V : Type} (parse : JStr → Option RpcResponse)
    (decrypt : JStr → Option V) (s : ClientState V) (chunk : JStr) :
    ClientState V :=
  let parts := splitOnChar '\n' (s.buffer ++ chunk)
  processLines parse decrypt { s with buffer := parts.getLastD [] }
    parts.dropLast

/-- Events of the single-threaded event loop that touch the correlator
state: `callStart id writeOk errMsg` is the tail of `call()` once
`await ensureConnected()` succeeded (register the timeout and the pending
entry, then attempt the write, which throws `errMsg` when
`writeOk = false`); `callConnectFailed id errMsg` is a `call()` whose
awaited `ensureConnected()` rejected with the raw error `errMsg`
(src/client/rpc.ts lines 112-114, 140-147 and 172-177), so the promise
returned by `call()` rejects with that error before any pending entry,
request id or timer is created — `id` here only names the call's promise
in the settlement log; `dataChunk` is a `'data'` event; `timerFire` is
the expiry of a per-call timeout that was not cancelled; `socketClose` is
the `'close'` event; `destroyClient` is `destroy()`
(src/client/rpc.ts lines 296-319). -/
inductive ClientEvent where
  | callStart (id : JStr) (writeOk : Bool) (errMsg : JStr)
  | callConnectFailed (id : JStr) (errMsg : JStr)
  | dataChunk (chunk : JStr)
  | timerFire (id : JStr)
  | socketClose
  | destroyClient
deriving DecidableEq

/-- Whether an event stays on the normal path of the error taxonomy: not
a `call()` whose connection phase failed, not a `call()` whose
`socket.write` threw, and not a `destroy()`. -/
def normalEvent : ClientEvent → Bool
  | ClientEvent.callStart _ writeOk _ => writeOk
  | ClientEvent.callConnectFailed _ _ => false
  | ClientEvent.destroyClient => false
  | _ => true

/-- One event of the single-threaded event loop acting on the client state.

`callStart` (src/client/rpc.ts lines 274-293): `setTimeout` registers a
timer, `pendingRequests.set` adds the entry (a `Map`, so the key set gains
`id` only if absent); if the write throws, the catch deletes the entry,
cancels the timer and rejects with the raw error.

`timerFire` (lines 275-278): the callback deletes the pending entry and
rejects with the timeout error; it can only run while the timer is
uncancelled.

`callConnectFailed` (the `await this.ensureConnected()` at line 265
rethrowing): the call rejects with the raw connect error and nothing else
is touched.

`socketClose` (lines 149-165): every pending request is rejected with the
connection-closed error and the map is cleared; the per-call timers are
not cancelled there.

`destroyClient` (lines 296-319): every pending request has its timeout
cancelled and is rejected with the raw `Error('Client destroyed')`, and
the map is cleared. -/
def step {V : Type} (parse : JStr → Option RpcResponse)
    (decrypt : JStr → Option V) (s : ClientState V) (e : ClientEvent) :
    ClientState V :=
  match e with
  | ClientEvent.callStart id writeOk errMsg =>
    let s1 : ClientState V :=
      { s with pending := if id ∈ s.pending then s.pending else s.pending ++ [id],
               timers := s.timers ++ [id] }
    if writeOk then s1
    else
      { s1 with pending := s1.pending.erase id,
                timers := s1.timers.erase id,
                settled := settleOnce s1.settled id (Outcome.writeFailed errMsg) }
  | ClientEvent.callConnectFailed id errMsg =>
    { s with settled := settleOnce s.settled id (Outcome.connectFailed errMsg) }
  | ClientEvent.dataChunk chunk => processBuffer parse decrypt s chunk
  | ClientEvent.timerFire id =>
    if id ∈ s.timers then
      { s with pending := s.pending.erase id,
               timers := s.timers.erase id,
               settled := settleOnce s.settled id Outcome.timedOut }
    else s
  | ClientEvent.socketClose =>
    let s1 := s.pending.foldl
      (fun acc id =>
        { acc with settled := settleOnce acc.settled id Outcome.connectionClosed })
      s
    { s1 with pending := [] }
  | ClientEvent.destroyClient =>
    let s1 := s.pending.foldl
      (fun acc id =>
        { acc with timers := acc.timers.erase id,
                   settled := settleOnce acc.settled id Outcome.destroyed })
      s
    { s1 with pending := [] }

/-- Run a trace of events from a given state. -/
def runFrom {V : Type} (parse : JStr → Option RpcResponse)
    (decrypt : JStr → Option V) (s : ClientState V)
    (events : List ClientEvent) : ClientState V :=
  events.foldl (step parse decrypt) s

/-- Run a trace of events from the freshly constructed client. -/
def run {V : Type} (parse : JStr → Option RpcResponse)
    (decrypt : JStr → Option V) (events : List ClientEvent) : ClientState V :=
  runFrom parse decrypt (initClient V) events

/-- A settlement the specification's error taxonomy allows a `call()` to
observe: a resolved (possibly empty) value, a peer-reported RPC error, a
timeout, or the connection-closed rejection. -/
def okOutcome {V : Type} (o : Outcome V) : Prop :=
  (∃ v, o = Outcome.value v) ∨ o = Outcome.emptyValue ∨
    (∃ m, o = Outcome.rpcError m) ∨ o = Outcome.timedOut ∨
    o = Outcome.connectionClosed

end RpcClient

namespace DhtServer

/-- External collaborators of `DhtServer.handleRequest`
(src/daemon/dht.ts): `decryptParams` is `encryption.decrypt` on the
request's params envelope (failing with the thrown message),
`handler` is the daemon's `onRequest` dispatcher (failing with the thrown
message, e.g. `Unknown method`), `encryptResult` is `encryption.encrypt`
of the handler result. -/
structure ServerApi (P R : Type) where
  decryptParams : JStr → Except JStr P
  handler : JStr → P → Except JStr R
  encryptResult : R → JStr

/-- `DhtServer.handleRequest` (src/daemon/dht.ts lines 218-239): decrypt
the params, dispatch the method, encrypt the result; any thrown error is
turned into an `ok: false` response carrying the message.  This function
never throws. -/
def handleRequest {P R : Type} (api : ServerApi P R) (request : RpcRequest) :
    RpcResponse :=
  match api.decryptParams request.params with
  | Except.error e => ⟨request.id, false, none, some e⟩
  | Except.ok params =>
    match api.handler request.method params with
    | Except.error e => ⟨request.id, false, none, some e⟩
    | Except.ok result => ⟨request.id, true, some (api.encryptResult result), none⟩

/-- The error response the server writes when `JSON.parse` throws on a
line (src/daemon/dht.ts lines 199-206): id `'unknown'`, `ok: false`, and
the parse error's message. -/
def parseErrorResponse (msg : JStr) : RpcResponse :=
  ⟨"unknown".data, false, none, some msg⟩

/-- Body of the newline-scanning `while` loop in
`DhtServer.handleConnection` (src/daemon/dht.ts lines 186-207) for one
extracted line: trim it, skip it when blank, otherwise `JSON.parse` it —
on success write the `handleRequest` response, on a parse failure write
the `'unknown'` error response.  `out` accumulates the responses written
to the socket, in order. -/
def processLine {P R : Type} (parseReq : JStr → Except JStr RpcRequest)
    (api : ServerApi P R) (out : List RpcResponse) (line : JStr) :
    List RpcResponse :=
  let l := trimChars line
  if l = [] then out
  else
    match parseReq l with
    | Except.error msg => out ++ [parseErrorResponse msg]
    | Except.ok request => out ++ [handleRequest api request]

/-- The complete-line loop of `DhtServer.handleConnection`, folded over the
extracted lines in arrival order. -/
def processLines {P R : Type} (parseReq : JStr → Except JStr RpcRequest)
    (api : ServerApi P R) (out : List RpcResponse) (lines : List JStr) :
    List RpcResponse :=
  lines.foldl (processLine parseReq api) out

/-- One `'data'` event of `DhtServer.handleConnection`: append the chunk to
the per-connection accumulator, consume every complete line (everything up
to the last newline), keep the trailing partial segment, and return the
responses written. -/
def handleChunk {P R : Type} (parseReq : JStr → Except JStr RpcRequest)
    (api : ServerApi P R) (buffer chunk : JStr) : JStr × List RpcResponse :=
  let parts := splitOnChar '\n' (buffer ++ chunk)
  (parts.getLastD [], processLines parseReq api [] parts.dropLast)

end DhtServer

namespace Daemon

/-- One buffered output event of a session (`SessionOutput`, src/types.ts):
`data` abstracts the structured `ClaudeMessage`, `timestamp` is
`Date.now()` at append time. -/
structure SessionOutput where
  data : String
  timestamp : Nat
deriving DecidableEq

/-- A tracked session (`TrackedSession`, src/types.ts): the process handle
is reduced to its pid, since only the registry bookkeeping is relevant
here. -/
structure TrackedSession where
  sessionId : JStr
  pid : Nat
  outputBuffer : List SessionOutput
  createdAt : Nat
  directory : JStr
deriving DecidableEq

/-- The daemon's session registry: the key-value pairs of the
`sessions: Map<string, TrackedSession>` field, in insertion order. -/
abbrev Sessions := List (JStr × TrackedSession)

/-- JavaScript `Array.prototype.slice(-n)` for `n > 0`: the at most `n`
last elements. -/
def sliceLast {α : Type} (n : Nat) (l : List α) : List α :=
  l.drop (l.length - n)

/-- The `claudeSession.onOutput` callback registered by `Daemon.spawnSession`
(src/daemon/daemon.ts lines 553-564): push the new event onto the session's
output buffer, then, if the buffer length exceeds 1000, replace it with its
last 500 entries (`outputBuffer.slice(-500)`). -/
def appendOutput (buf : List SessionOutput) (e : SessionOutput) :
    List SessionOutput :=
  let b := buf ++ [e]
  if b.length > 1000 then sliceLast 500 b else b

/-- Result of the `get-output` RPC method (`GetOutputResult`,
src/types.ts): always a messages list, with no failure arm. -/
structure GetOutputResult where
  messages : List SessionOutput
deriving DecidableEq

/-- Replace the output buffer of session `sid` with the empty list
(the `session.outputBuffer = []` mutation seen through the registry). -/
def clearSessionBuffer (sessions : Sessions) (sid : JStr) : Sessions :=
  sessions.map (fun p => if p.1 = sid then (p.1, { p.2 with outputBuffer := [] }) else p)

/-- `Daemon.getOutput` (src/daemon/daemon.ts lines 615-628): an unknown
session id yields `{messages: []}` with the registry untouched; otherwise
a snapshot of the session's buffer is taken, the buffer is emptied when
`clear` is set, and the snapshot is returned. -/
def getOutput (sessions : Sessions) (sid : JStr) (clear : Bool) :
    GetOutputResult × Sessions :=
  match List.lookup sid sessions with
  | none => (⟨[]⟩, sessions)
  | some session =>
    let messages := session.outputBuffer
    (⟨messages⟩, if clear then clearSessionBuffer sessions sid else sessions)

/-- Outcome of the directory-restriction check at the top of
`Daemon.spawnSession`: either the request is rejected with the policy
error message, or execution proceeds to spawn the process. -/
inductive SpawnPolicyResult where
  | rejected (errorMessage : JStr)
  | proceeds
deriving DecidableEq

/-- The directory-restriction policy of `Daemon.spawnSession`
(src/daemon/daemon.ts lines 521-531), applied to the already-resolved
target directory (`resolve(options.directory)`): when a root is
configured, the request is rejected unless the resolved directory starts
with the root string (`resolvedDir.startsWith(this.rootDir)`); with no
root configured every directory is accepted. -/
def spawnSessionPolicy (rootDir : Option JStr) (resolvedDir : JStr) :
    SpawnPolicyResult :=
  match rootDir with
  | none => SpawnPolicyResult.proceeds
  | some root =>
    if !(List.isPrefixOf root resolvedDir) then
      SpawnPolicyResult.rejected
        ("Directory ".data ++ resolvedDir ++ " is outside allowed root: ".data ++ root)
    else SpawnPolicyResult.proceeds

/-- Modelled from the spec: the claim's notion that a resolved path lies
inside the configured root — it is the root itself or a descendant of it,
i.e. extends the root at a path-separator boundary.  (The source has no
such predicate; its check is the string-prefix test in
`spawnSessionPolicy`.) -/
def resolvesInsideRoot (root resolvedDir : JStr) : Bool :=
  resolvedDir == root || List.isPrefixOf (root ++ ['/']) resolvedDir

end Daemon

namespace RpcClient

/-- The reconnection bookkeeping of `RpcClient` (src/client/rpc.ts):
`reconnectAttempts` counts consecutively scheduled attempts,
`reconnectTimerActive` models `reconnectTimer !== null`, `isDestroyed`
the destroyed flag. -/
structure ReconnState where
  reconnectAttempts : Nat
  reconnectTimerActive : Bool
  isDestroyed : Bool
deriving DecidableEq

/-- `maxReconnectAttempts = 10` (src/client/rpc.ts line 71). -/
def maxReconnectAttempts : Nat := 10

/-- Reconnection state of a freshly constructed client. -/
def initReconn : ReconnState := ⟨0, false, false⟩

/-- `RpcClient.scheduleReconnect` (src/client/rpc.ts lines 186-216):
do nothing when destroyed, when a retry is already scheduled, or when the
attempt counter has reached the maximum (give up); otherwise compute
`min(1000 * 2 ^ reconnectAttempts, 30000)`, increment the counter, and
arm the retry timer with that delay.  Returns the scheduled delay, if
any, together with the new state. -/
def scheduleReconnect (s : ReconnState) : Option Nat × ReconnState :=
  if s.isDestroyed || s.reconnectTimerActive then (none, s)
  else if s.reconnectAttempts ≥ maxReconnectAttempts then (none, s)
  else
    let delay := min (1000 * 2 ^ s.reconnectAttempts) 30000
    (some delay,
      { s with reconnectAttempts := s.reconnectAttempts + 1,
               reconnectTimerActive := true })

/-- The retry timer firing (src/client/rpc.ts line 203 sets
`reconnectTimer = null` before attempting to reconnect). -/
def reconnectTimerFires (s : ReconnState) : ReconnState :=
  { s with reconnectTimerActive := false }

/-- `onConnect` in `ensureConnected` (src/client/rpc.ts line 132): a
successful connection resets the attempt counter to zero. -/
def onConnectSuccess (s : ReconnState) : ReconnState :=
  { s with reconnectAttempts := 0 }

/-- The delay of the `n`-th scheduled attempt (counting from `n = 1`) in a
run of consecutive failures starting from state `s`: each scheduled retry
fires, its `ensureConnected` fails, and the catch calls
`scheduleReconnect` again.  `none` when fewer than `n` attempts get
scheduled before giving up. -/
def nthScheduledDelay (s : ReconnState) : Nat → Option Nat
  | 0 => none
  | Nat.succ n =>
    match scheduleReconnect s with
    | (none, _) => none
    | (some d, s1) =>
      if n = 0 then some d else nthScheduledDelay (reconnectTimerFires s1) n

end RpcClient

namespace RpcClient

/-- Whether an event is not a `callStart` for the given request id
(request ids are fresh UUIDs in the source, so an id is never reused by a
later call). -/
def notCallStartFor (id : JStr) : ClientEvent → Bool
  | ClientEvent.callStart i _ _ => !(i == id)
  | _ => true

end RpcClient

/-- Concrete `JSON.parse` behaviour used by counterexample traces: the
single line `R` parses to a well-formed `ok` response for request `a`
carrying result envelope `E`; everything else is rejected. -/
def ceParse : JStr → Option RpcResponse := fun l =>
  if l = "R".data then some ⟨"a".data, true, some "E".data, none⟩ else none

/-- Concrete `encryption.decrypt` behaviour in which every envelope fails
to decrypt (e.g. a tampered or wrong-key envelope). -/
def ceDecryptFail : JStr → Option Nat := fun _ => none

/-- Concrete `encryption.decrypt` behaviour in which envelope `E` decrypts
to the value `7`. -/
def wDecryptOk : JStr → Option Nat := fun e =>
  if e = "E".data then some 7 else none

/-- Trace whose write fails: a single `call()` whose `socket.write` throws
`EPIPE`. -/
def ceWriteFailTrace : List RpcClient.ClientEvent :=
  [RpcClient.ClientEvent.callStart "a".data false "EPIPE".data]

/-- Trace whose matched response fails to decrypt: a `call()` whose write
succeeds, followed by the arrival of the matching response line. -/
def ceDecryptFailTrace : List RpcClient.ClientEvent :=
  [RpcClient.ClientEvent.callStart "a".data true [],
   RpcClient.ClientEvent.dataChunk "R\n".data]

/-- Trace in which the client is destroyed while call `a` is pending. -/
def ceDestroyTrace : List RpcClient.ClientEvent :=
  [RpcClient.ClientEvent.callStart "a".data true [],
   RpcClient.ClientEvent.destroyClient]

/-- Trace in which call `a`'s awaited `ensureConnected()` rejects with the
raw DHT socket error. -/
def ceConnectFailTrace : List RpcClient.ClientEvent :=
  [RpcClient.ClientEvent.callConnectFailed "a".data "ECONNREFUSED".data]

/-- Concrete server-side `JSON.parse` behaviour: every line is rejected
with a syntax-error message (the counterexample feeds it a single
non-JSON line). -/
def ceParseReq : JStr → Except JStr RpcRequest := fun _ =>
  Except.error "Unexpected token g in JSON at position 0".data

/-- Concrete daemon-side collaborators for the server counterexample. -/
def ceServerApi : DhtServer.ServerApi Unit Unit :=
  ⟨fun _ => Except.ok (), fun _ _ => Except.ok (), fun _ => "x".data⟩

/-- Parse behaviour for the correlator witness: line `LB` is the response
to request `B` (envelope `eB`), line `LA` the response to request `A`
(envelope `eA`). -/
def wParseC5 : JStr → Option RpcResponse := fun l =>
  if l = "LB".data then some ⟨"B".data, true, some "eB".data, none⟩
  else if l = "LA".data then some ⟨"A".data, true, some "eA".data, none⟩
  else none

/-- Decrypt behaviour for the correlator witness: envelope `eA` holds `1`,
envelope `eB` holds `2`. -/
def wDecryptC5 : JStr → Option Nat := fun e =>
  if e = "eA".data then some 1 else if e = "eB".data then some 2 else none

/-- Client state with two concurrent in-flight calls `A` and `B`. -/
def wStateC5 : RpcClient.ClientState Nat :=
  ⟨["A".data, "B".data], ["A".data, "B".data], [], []⟩

/-- Client state with one in-flight call `a`, used by the timeout witness. -/
def wStateC7 : RpcClient.ClientState Nat := ⟨["a".data], ["a".data], [], []⟩

/-- Events arriving after the timeout fired: the late response line `R`
(which `ceParse` matches to request id `a`). -/
def wLateEvents : List RpcClient.ClientEvent :=
  [RpcClient.ClientEvent.dataChunk "R\n".data]

/-- A full output buffer of 1000 events. -/
def wBuf1000 : List Daemon.SessionOutput :=
  (List.range 1000).map (fun i => ⟨"m", i⟩)

/-- The 1001st event appended to `wBuf1000`. -/
def wEvent1001 : Daemon.SessionOutput := ⟨"new", 1000⟩

/-- Five buffered events, as in the specification's polling example. -/
def wOutputs5 : List Daemon.SessionOutput :=
  [⟨"e1", 1⟩, ⟨"e2", 2⟩, ⟨"e3", 3⟩, ⟨"e4", 4⟩, ⟨"e5", 5⟩]

/-- A registry with the single session `s1` holding `wOutputs5`. -/
def wSessions : Daemon.Sessions :=
  [("s1".data, ⟨"s1".data, 42, wOutputs5, 0, "/tmp/w".data⟩)]

/-- A registry with a live session `s2` that has no buffered output. -/
def wSessionsEmptyBuf : Daemon.Sessions :=
  [("s2".data, ⟨"s2".data, 43, [], 0, "/tmp/w".data⟩)]

/-! Helper lemmas about association-list lookups and the settlement log. -/

theorem lookup_append_of_some {α β : Type} [BEq α] {a : α} {l₁ : List (α × β)}
    {b : β} (l₂ : List (α × β)) (h : List.lookup a l₁ = some b) :
    List.lookup a (l₁ ++ l₂) = some b := by
  induction l₁ with
  | nil => simp [List.lookup] at h
  | cons p t ih =>
    obtain ⟨k, v⟩ := p
    simp only [List.cons_append, List.lookup] at h ⊢
    cases hb : a == k
    · simp only [hb] at h ⊢
      exact ih h
    · simp only [hb] at h ⊢
      exact h

theorem lookup_append_of_none {α β : Type} [BEq α] {a : α} {l₁ : List (α × β)}
    (l₂ : List (α × β)) (h : List.lookup a l₁ = none) :
    List.lookup a (l₁ ++ l₂) = List.lookup a l₂ := by
  induction l₁ with
  | nil => simp
  | cons p t ih =>
    obtain ⟨k, v⟩ := p
    simp only [List.cons_append, List.lookup] at h ⊢
    cases hb : a == k
    · simp only [hb] at h ⊢
      exact ih h
    · simp only [hb] at h
      exact Option.noConfusion h

namespace RpcClient

theorem settleOnce_of_lookup_none {V : Type} {st : List (JStr × Outcome V)}
    {id : JStr} (o : Outcome V) (h : List.lookup id st = none) :
    settleOnce st id o = st ++ [(id, o)] := by
  simp [settleOnce, h]

theorem settleOnce_lookup_persist {V : Type} {st : List (JStr × Outcome V)}
    {id : JStr} {o : Outcome V} (i : JStr) (o' : Outcome V)
    (h : List.lookup id st = some o) :
    List.lookup id (settleOnce st i o') = some o := by
  unfold settleOnce
  by_cases hi : (List.lookup i st).isSome
  · simpa [hi] using h
  · simp only [hi, if_false]
    exact lookup_append_of_some _ h

theorem settleOnce_mem {V : Type} {st : List (JStr × Outcome V)}
    {P : Outcome V → Prop} {id : JStr} {o : Outcome V}
    (hst : ∀ p ∈ st, P p.2) (ho : P o) :
    ∀ p ∈ settleOnce st id o, P p.2 := by
  intro p hp
  unfold settleOnce at hp
  by_cases hi : (List.lookup id st).isSome
  · rw [if_pos hi] at hp
    exact hst p hp
  · rw [if_neg hi] at hp
    rcases List.mem_append.mp hp with hp | hp
    · exact hst p hp
    · rw [List.mem_singleton.mp hp]
      exact ho

theorem processLine_settled_cases {V : Type} (parse : JStr → Option RpcResponse)
    (decrypt : JStr → Option V) (s : ClientState V) (line : JStr) :
    (processLine parse decrypt s line).settled = s.settled ∨
      ∃ i o, okOutcome o ∧
        (processLine parse decrypt s line).settled = settleOnce s.settled i o := by
  by_cases h1 : trimChars line = []
  · left
    simp [processLine, h1]
  · cases hp : parse line with
    | none =>
      left
      simp [processLine, h1, hp]
    | some r =>
      by_cases h2 : r.id ∈ s.pending
      · by_cases h3 : r.ok = false
        · right
          refine ⟨r.id, Outcome.rpcError (errorOrDefault r.error), ?_, ?_⟩
          · exact Or.inr (Or.inr (Or.inl ⟨_, rfl⟩))
          · simp [processLine, h1, hp, h2, h3]
        · cases ht : truthyResult r.result with
          | some env =>
            cases hd : decrypt env with
            | some v =>
              right
              refine ⟨r.id, Outcome.value v, Or.inl ⟨v, rfl⟩, ?_⟩
              simp [processLine, h1, hp, h2, h3, ht, hd]
            | none =>
              left
              simp [processLine, h1, hp, h2, h3, ht, hd]
          | none =>
            right
            refine ⟨r.id, Outcome.emptyValue, Or.inr (Or.inl rfl), ?_⟩
            simp [processLine, h1, hp, h2, h3, ht]
      · left
        simp [processLine, h1, hp, h2]

theorem processLine_settled_persist {V : Type} {parse : JStr → Option RpcResponse}
    {decrypt : JStr → Option V} {s : ClientState V} {line : JStr} {id : JStr}
    {o : Outcome V} (h : List.lookup id s.settled = some o) :
    List.lookup id (processLine parse decrypt s line).settled = some o := by
  rcases processLine_settled_cases parse decrypt s line with hc | ⟨i, o', _, hc⟩
  · rw [hc]
    exact h
  · rw [hc]
    exact settleOnce_lookup_persist i o' h

theorem processLine_settled_mem {V : Type} {parse : JStr → Option RpcResponse}
    {decrypt : JStr → Option V} {s : ClientState V} {line : JStr}
    (hst : ∀ p ∈ s.settled, okOutcome p.2) :
    ∀ p ∈ (processLine parse decrypt s line).settled, okOutcome p.2 := by
  rcases processLine_settled_cases parse decrypt s line with hc | ⟨i, o', ho, hc⟩
  · rw [hc]
    exact hst
  · rw [hc]
    exact settleOnce_mem hst ho

theorem processLines_settled_persist {V : Type} {parse : JStr → Option RpcResponse}
    {decrypt : JStr → Option V} {id : JStr} {o : Outcome V} :
    ∀ (lines : List JStr) (s : ClientState V),
      List.lookup id s.settled = some o →
      List.lookup id (processLines parse decrypt s lines).settled = some o := by
  intro lines
  induction lines with
  | nil =>
    intro s h
    exact h
  | cons l t ih =>
    intro s h
    exact ih _ (processLine_settled_persist h)

theorem processLines_settled_mem {V : Type} {parse : JStr → Option RpcResponse}
    {decrypt : JStr → Option V} :
    ∀ (lines : List JStr) (s : ClientState V),
      (∀ p ∈ s.settled, okOutcome p.2) →
      ∀ p ∈ (processLines parse decrypt s lines).settled, okOutcome p.2 := by
  intro lines
  induction lines with
  | nil =>
    intro s h
    exact h
  | cons l t ih =>
    intro s h
    exact ih _ (processLine_settled_mem h)

theorem closeFold_settled_persist {V : Type} {id : JStr} {o : Outcome V} :
    ∀ (ids : List JStr) (s : ClientState V),
      List.lookup id s.settled = some o →
      List.lookup id ((ids.foldl (fun acc i =>
        { acc with settled := settleOnce acc.settled i Outcome.connectionClosed })
        s)).settled = some o := by
  intro ids
  induction ids with
  | nil =>
    intro s h
    exact h
  | cons i t ih =>
    intro s h
    exact ih _ (settleOnce_lookup_persist i Outcome.connectionClosed h)

theorem closeFold_settled_mem {V : Type} :
    ∀ (ids : List JStr) (s : ClientState V),
      (∀ p ∈ s.settled, okOutcome p.2) →
      ∀ p ∈ ((ids.foldl (fun acc i =>
        { acc with settled := settleOnce acc.settled i Outcome.connectionClosed })
        s)).settled, okOutcome p.2 := by
  intro ids
  induction ids with
  | nil =>
    intro s h
    exact h
  | cons i t ih =>
    intro s h
    exact ih _ (settleOnce_mem h (Or.inr (Or.inr (Or.inr (Or.inr rfl)))))

theorem destroyFold_settled_persist {V : Type} {id : JStr} {o : Outcome V} :
    ∀ (ids : List JStr) (s : ClientState V),
      List.lookup id s.settled = some o →
      List.lookup id ((ids.foldl (fun acc i =>
        { acc with timers := acc.timers.erase i,
                   settled := settleOnce acc.settled i Outcome.destroyed })
        s)).settled = some o := by
  intro ids
  induction ids with
  | nil =>
    intro s h
    exact h
  | cons i t ih =>
    intro s h
    exact ih _ (settleOnce_lookup_persist i Outcome.destroyed h)

theorem step_settled_persist {V : Type} {parse : JStr → Option RpcResponse}
    {decrypt : JStr → Option V} {id : JStr} {o : Outcome V}
    (e : ClientEvent) (s : ClientState V)
    (h : List.lookup id s.settled = some o) :
    List.lookup id (step parse decrypt s e).settled = some o := by
  cases e with
  | callStart i w m =>
    cases w with
    | true => simpa [step] using h
    | false =>
      simp only [step]
      exact settleOnce_lookup_persist i (Outcome.writeFailed m) h
  | callConnectFailed i m =>
    simp only [step]
    exact settleOnce_lookup_persist i (Outcome.connectFailed m) h
  | dataChunk c =>
    simp only [step, processBuffer]
    exact processLines_settled_persist _ _ h
  | timerFire i =>
    by_cases hm : i ∈ s.timers
    · simp only [step, if_pos hm]
      exact settleOnce_lookup_persist i Outcome.timedOut h
    · simpa [step, if_neg hm] using h
  | socketClose =>
    simp only [step]
    exact closeFold_settled_persist _ _ h
  | destroyClient =>
    simp only [step]
    exact destroyFold_settled_persist _ _ h

theorem runFrom_settled_persist {V : Type} {parse : JStr → Option RpcResponse}
    {decrypt : JStr → Option V} {id : JStr} {o : Outcome V} :
    ∀ (events : List ClientEvent) (s : ClientState V),
      List.lookup id s.settled = some o →
      List.lookup id (runFrom parse decrypt s events).settled = some o := by
  intro events
  induction events with
  | nil =>
    intro s h
    exact h
  | cons e t ih =>
    intro s h
    exact ih _ (step_settled_persist e s h)

theorem step_settled_mem {V : Type} {parse : JStr → Option RpcResponse}
    {decrypt : JStr → Option V} (e : ClientEvent) (s : ClientState V)
    (hw : normalEvent e = true) (hst : ∀ p ∈ s.settled, okOutcome p.2) :
    ∀ p ∈ (step parse decrypt s e).settled, okOutcome p.2 := by
  cases e with
  | callStart i w m =>
    cases w with
    | true =>
      intro p hp
      exact hst p hp
    | false => exact absurd hw (by simp [normalEvent])
  | callConnectFailed i m => exact absurd hw (by simp [normalEvent])
  | destroyClient => exact absurd hw (by simp [normalEvent])
  | dataChunk c =>
    simp only [step, processBuffer]
    exact processLines_settled_mem _ _ hst
  | timerFire i =>
    by_cases hm : i ∈ s.timers
    · simp only [step, if_pos hm]
      exact settleOnce_mem hst (Or.inr (Or.inr (Or.inr (Or.inl rfl))))
    · have hs : step parse decrypt s (ClientEvent.timerFire i) = s := by
        simp [step, if_neg hm]
      rw [hs]
      exact hst
  | socketClose =>
    simp only [step]
    exact closeFold_settled_mem _ _ hst

theorem runFrom_settled_mem {V : Type} {parse : JStr → Option RpcResponse}
    {decrypt : JStr → Option V} :
    ∀ (events : List ClientEvent) (s : ClientState V),
      (∀ e ∈ events, normalEvent e = true) →
      (∀ p ∈ s.settled, okOutcome p.2) →
      ∀ p ∈ (runFrom parse decrypt s events).settled, okOutcome p.2 := by
  intro events
  induction events with
  | nil =>
    intro s _ h
    exact h
  | cons e t ih =>
    intro s hw h
    exact ih _ (fun e' he' => hw e' (List.mem_cons_of_mem e he'))
      (step_settled_mem e s (hw e (List.mem_cons_self e t)) h)

end RpcClient

theorem lookup_clearSessionBuffer (sessions : Daemon.Sessions) (sid : JStr)
    (s : Daemon.TrackedSession) (h : List.lookup sid sessions = some s) :
    List.lookup sid (Daemon.clearSessionBuffer sessions sid)
      = some { s with outputBuffer := [] } := by
  induction sessions with
  | nil => simp [List.lookup] at h
  | cons p t ih =>
    obtain ⟨k, v⟩ := p
    simp only [List.lookup] at h
    simp only [Daemon.clearSessionBuffer, List.map_cons]
    cases hb : sid == k
    · simp only [hb] at h
      have hkne : ¬ (k = sid) := by
        intro hq
        subst hq
        simp at hb
      rw [if_neg hkne]
      simp only [List.lookup, hb]
      exact ih h
    · simp only [hb] at h
      have hk : k = sid := (eq_of_beq hb).symm
      rw [if_pos hk]
      simp only [List.lookup, hb]
      rw [Option.some_inj.mp h]

/-- Claim C1 (the code diverges from it): with configured root
`/home/user/projects`, a spawn request whose target directory resolves to
the sibling directory `/home/user/projects2` — which does not resolve to
a path inside the root — is not rejected by the policy check and proceeds
to spawn, because `Daemon.spawnSession` tests
`resolvedDir.startsWith(this.rootDir)` on raw strings with no
path-separator boundary. -/
theorem spawnSession_prefix_policy_accepts_sibling :
    Daemon.spawnSessionPolicy (some "/home/user/projects".data)
        "/home/user/projects2".data = Daemon.SpawnPolicyResult.proceeds
  ∧ Daemon.resolvesInsideRoot "/home/user/projects".data
      "/home/user/projects2".data = false := by
  constructor
  · decide
  · decide

/-- Claim C6: starting from a previously successful connection, the `n`-th
consecutively scheduled reconnect delay equals
`min(1000 * 2 ^ (n-1), 30000)` for `1 ≤ n ≤ 10`; the 11th consecutive
attempt is not scheduled (give-up after 10); and every successful
connection resets the attempt counter to zero, so the next failure
schedules 1000 ms again. -/
theorem reconnect_backoff_schedule :
    (∀ n : Nat, 1 ≤ n → n ≤ 10 →
      RpcClient.nthScheduledDelay RpcClient.initReconn n
        = some (min (1000 * 2 ^ (n - 1)) 30000))
  ∧ RpcClient.nthScheduledDelay RpcClient.initReconn 11 = none
  ∧ (∀ s : RpcClient.ReconnState,
      (RpcClient.onConnectSuccess s).reconnectAttempts = 0)
  ∧ (∀ s : RpcClient.ReconnState, s.isDestroyed = false →
      s.reconnectTimerActive = false →
      RpcClient.nthScheduledDelay (RpcClient.onConnectSuccess s) 1 = some 1000) := by
  refine ⟨?_, by decide, fun s => rfl, ?_⟩
  · intro n h1 h10
    interval_cases n <;> decide
  · intro s hd ht
    simp [RpcClient.nthScheduledDelay, RpcClient.scheduleReconnect,
      RpcClient.onConnectSuccess, RpcClient.maxReconnectAttempts, hd, ht]

/-- Witness for C6: the 4th consecutively scheduled delay is
`min(1000 * 2^3, 30000) = 8000` ms, and after a successful connection in a
state with 7 accumulated attempts the next failure schedules 1000 ms. -/
theorem reconnect_backoff_schedule_witness :
    (1 ≤ 4 ∧ 4 ≤ 10 ∧
      RpcClient.nthScheduledDelay RpcClient.initReconn 4
        = some (min (1000 * 2 ^ (4 - 1)) 30000))
  ∧ RpcClient.nthScheduledDelay
      (RpcClient.onConnectSuccess ⟨7, false, false⟩) 1 = some 1000 :=
  ⟨⟨by decide, by decide,
    reconnect_backoff_schedule.1 4 (by decide) (by decide)⟩,
   reconnect_backoff_schedule.2.2.2 ⟨7, false, false⟩ rfl rfl⟩

/-- Claim C8: appending to a session's output buffer never grows it past
the hard cap of 1000 entries, and appending a 1001st event to a full
1000-entry buffer leaves exactly the 500 most recent events in arrival
order (the oldest 501 of the 1001 are discarded). -/
theorem outputBuffer_cap (buf : List Daemon.SessionOutput)
    (e : Daemon.SessionOutput) :
    (buf.length ≤ 1000 → (Daemon.appendOutput buf e).length ≤ 1000)
  ∧ (buf.length = 1000 →
      Daemon.appendOutput buf e = buf.drop 501 ++ [e]
      ∧ (Daemon.appendOutput buf e).length = 500) := by
  have hlen : (buf ++ [e]).length = buf.length + 1 := by simp
  constructor
  · intro hle
    unfold Daemon.appendOutput Daemon.sliceLast
    by_cases hgt : (buf ++ [e]).length > 1000
    · rw [if_pos hgt, List.length_drop]
      omega
    · rw [if_neg hgt]
      omega
  · intro heq
    have hgt : (buf ++ [e]).length > 1000 := by omega
    have hdrop : Daemon.appendOutput buf e = buf.drop 501 ++ [e] := by
      unfold Daemon.appendOutput Daemon.sliceLast
      rw [if_pos hgt]
      have h501 : (buf ++ [e]).length - 500 = 501 := by omega
      rw [h501, List.drop_append_of_le_length (by omega)]
    refine ⟨hdrop, ?_⟩
    rw [hdrop]
    simp [heq]

/-- Witness for C8: a concrete full buffer of 1000 events, to which the
1001st append leaves the 500 most recent. -/
theorem outputBuffer_cap_witness :
    wBuf1000.length = 1000
  ∧ (Daemon.appendOutput wBuf1000 wEvent1001).length ≤ 1000
  ∧ Daemon.appendOutput wBuf1000 wEvent1001 = wBuf1000.drop 501 ++ [wEvent1001] := by
  have hlen : wBuf1000.length = 1000 := by simp [wBuf1000]
  exact ⟨hlen, (outputBuffer_cap wBuf1000 wEvent1001).1 (le_of_eq hlen),
    ((outputBuffer_cap wBuf1000 wEvent1001).2 hlen).1⟩

/-- Claim C9: polling a tracked session with `clear = true` returns
exactly its buffered events in order and empties the buffer in the same
operation, so an immediately following poll (with or without `clear`, and
with no intervening appends) returns the empty list. -/
theorem getOutput_clear_drains (sessions : Daemon.Sessions) (sid : JStr)
    (s : Daemon.TrackedSession) (h : List.lookup sid sessions = some s) :
    (Daemon.getOutput sessions sid true).1.messages = s.outputBuffer
  ∧ List.lookup sid (Daemon.getOutput sessions sid true).2
      = some { s with outputBuffer := [] }
  ∧ ∀ c : Bool,
      (Daemon.getOutput (Daemon.getOutput sessions sid true).2 sid c).1.messages
        = [] := by
  have h2 := lookup_clearSessionBuffer sessions sid s h
  refine ⟨by simp [Daemon.getOutput, h], ?_, ?_⟩
  · simp only [Daemon.getOutput, h]
    exact h2
  · intro c
    simp only [Daemon.getOutput, h]
    simp [Daemon.getOutput, h2]

/-- Witness for C9: the session `s1` buffers the five events of
`wOutputs5`; a clearing poll returns all five and the next poll returns
nothing. -/
theorem getOutput_clear_drains_witness :
    List.lookup "s1".data wSessions
      = some ⟨"s1".data, 42, wOutputs5, 0, "/tmp/w".data⟩
  ∧ (Daemon.getOutput wSessions "s1".data true).1.messages = wOutputs5
  ∧ ∀ c : Bool,
      (Daemon.getOutput (Daemon.getOutput wSessions "s1".data true).2
        "s1".data c).1.messages = [] := by
  have h : List.lookup "s1".data wSessions
      = some ⟨"s1".data, 42, wOutputs5, 0, "/tmp/w".data⟩ := by decide
  exact ⟨h, (getOutput_clear_drains wSessions "s1".data _ h).1,
    (getOutput_clear_drains wSessions "s1".data _ h).2.2⟩

/-- Claim C10: `get-output` for a session id absent from the registry
returns a success result with an empty messages list — the same result a
live session with an empty buffer produces — and leaves the registry
unchanged. -/
theorem getOutput_unknown_session :
    (∀ (sessions : Daemon.Sessions) (sid : JStr) (clear : Bool),
      List.lookup sid sessions = none →
      Daemon.getOutput sessions sid clear = (⟨[]⟩, sessions))
  ∧ (∀ (sessions : Daemon.Sessions) (sid : JStr) (s : Daemon.TrackedSession)
      (clear : Bool), List.lookup sid sessions = some s → s.outputBuffer = [] →
      (Daemon.getOutput sessions sid clear).1 = ⟨[]⟩) := by
  constructor
  · intro sessions sid clear h
    simp [Daemon.getOutput, h]
  · intro sessions sid s clear h hb
    simp [Daemon.getOutput, h, hb]

/-- Witness for C10: polling the unknown id `zz` yields `{messages: []}`
and the untouched registry, exactly like polling the live session `s2`
whose buffer is empty. -/
theorem getOutput_unknown_session_witness :
    List.lookup "zz".data wSessions = none
  ∧ Daemon.getOutput wSessions "zz".data true = (⟨[]⟩, wSessions)
  ∧ List.lookup "s2".data wSessionsEmptyBuf
      = some ⟨"s2".data, 43, [], 0, "/tmp/w".data⟩
  ∧ (Daemon.getOutput wSessionsEmptyBuf "s2".data false).1 = ⟨[]⟩ :=
  ⟨by decide,
   getOutput_unknown_session.1 wSessions "zz".data true (by decide),
   by decide,
   getOutput_unknown_session.2 wSessionsEmptyBuf "s2".data
     ⟨"s2".data, 43, [], 0, "/tmp/w".data⟩ false (by decide) rfl⟩

theorem bundle_extract_nonce (nonce ct tag : Bytes) (hn : nonce.length = 12) :
    ((0 :: (nonce ++ ct ++ tag)).drop 1).take 12 = nonce := by
  rw [List.drop_one, List.tail_cons, List.append_assoc, ← hn, List.take_left]

theorem bundle_extract_tag (nonce ct tag : Bytes) (hn : nonce.length = 12)
    (ht : tag.length = 16) :
    (0 :: (nonce ++ ct ++ tag)).drop ((0 :: (nonce ++ ct ++ tag)).length - 16)
      = tag := by
  have hrepr : (0 : Nat) :: (nonce ++ ct ++ tag) = (0 :: (nonce ++ ct)) ++ tag := by
    simp
  have hlen : (0 :: (nonce ++ ct ++ tag)).length - 16 = (0 :: (nonce ++ ct)).length := by
    simp [hn, ht]
    omega
  rw [hlen, hrepr, List.drop_left]

theorem bundle_extract_ct (nonce ct tag : Bytes) (hn : nonce.length = 12)
    (ht : tag.length = 16) :
    ((0 :: (nonce ++ ct ++ tag)).drop 13).take
      ((0 :: (nonce ++ ct ++ tag)).length - 16 - 13) = ct := by
  have hrepr : (0 : Nat) :: (nonce ++ ct ++ tag) = (0 :: nonce) ++ (ct ++ tag) := by
    simp
  have h13 : (13 : Nat) = (0 :: nonce).length := by simp [hn]
  have hlen : (0 :: (nonce ++ ct ++ tag)).length - 16 - 13 = ct.length := by
    simp [hn, ht]
    omega
  rw [hlen, hrepr, h13, List.drop_left]
  exact List.take_left ct tag

/-- Claim C3: for every JSON-serializable structured value `v` and valid
256-bit key, decrypting the envelope produced by `encrypt` under the same
key returns `v`.  The external primitives are quantified with their
documented behaviour: base64 decoding inverts encoding, the nonce is 12
bytes, the GCM tag is 16 bytes, GCM decryption inverts GCM encryption
under the same key and nonce, and `JSON.parse` inverts `JSON.stringify`.
The theorem then establishes what the repository's code adds on top of
them: the bundle layout written by `encrypt` (version byte, nonce,
ciphertext, tag at offsets 0, 1, 13, length-16) is re-extracted exactly by
`decrypt`, the length guard (`≥ 29`) and version guard (`= 0`) accept
every produced envelope, and the decrypted value is `Except.ok v`. -/
theorem encrypt_decrypt_roundTrip {V B : Type} (api : Encryption.CryptoPrims V B)
    (nonce : Bytes) (v : V)
    (hb64 : ∀ bs : Bytes, api.b64decode (api.b64encode bs) = bs)
    (hnonce : nonce.length = 12)
    (htag : (api.gcmEncrypt nonce (api.stringify v)).2.length = 16)
    (hgcm : api.gcmDecrypt nonce (api.gcmEncrypt nonce (api.stringify v)).1
        (api.gcmEncrypt nonce (api.stringify v)).2 = some (api.stringify v))
    (hjson : api.parseJson (api.stringify v) = some v) :
    Encryption.decrypt api (Encryption.encrypt api nonce v) = Except.ok v := by
  have hlen : (0 :: (nonce ++ (api.gcmEncrypt nonce (api.stringify v)).1
      ++ (api.gcmEncrypt nonce (api.stringify v)).2)).length
      = 29 + (api.gcmEncrypt nonce (api.stringify v)).1.length := by
    simp [hnonce, htag]
    omega
  simp only [Encryption.encrypt, Encryption.decrypt, hb64]
  rw [if_neg (by rw [hlen]; omega)]
  rw [if_neg (by simp)]
  rw [bundle_extract_nonce _ _ _ hnonce,
    bundle_extract_tag _ _ _ hnonce htag,
    bundle_extract_ct _ _ _ hnonce htag]
  rw [hgcm]
  simp [hjson]

/-- Witness for C3: the round trip evaluated with the concrete primitive
pack `witCrypto`, an all-zero 12-byte nonce and the value `true`. -/
theorem encrypt_decrypt_roundTrip_witness :
    (∀ bs : Bytes, witCrypto.b64decode (witCrypto.b64encode bs) = bs)
  ∧ (List.replicate 12 0 : Bytes).length = 12
  ∧ Encryption.decrypt witCrypto
      (Encryption.encrypt witCrypto (List.replicate 12 0) true) = Except.ok true :=
  ⟨fun _ => rfl, by decide,
   encrypt_decrypt_roundTrip witCrypto (List.replicate 12 0) true
     (fun _ => rfl) (by decide) (by decide) rfl rfl⟩

/-- Claim C2 is false on the code at four concrete executions.  First, a
`call()` whose `socket.write` throws (`EPIPE`) is rejected with that raw
transport exception (`Outcome.writeFailed`), which is none of the four
allowed settlements.  Second, a `call()` whose write succeeds and whose
matching response arrives but whose result envelope fails to decrypt is
removed from the pending map with its timer cleared and is never settled:
no later response can match it, its timeout is cancelled, and the
connection-close and destroy sweeps no longer see it — the promise stays
unsettled forever.  Third, `destroy()` rejects a pending call with the
raw `Error('Client destroyed')`.  Fourth, a `call()` whose awaited
`ensureConnected()` rejects (here with the raw DHT socket error
`ECONNREFUSED`) is rejected with that raw transport exception. -/
theorem call_settlement_counterexample :
    List.lookup "a".data
        (RpcClient.run ceParse ceDecryptFail ceWriteFailTrace).settled
      = some (Outcome.writeFailed "EPIPE".data)
  ∧ (RpcClient.run ceParse ceDecryptFail ceDecryptFailTrace).settled = []
  ∧ (RpcClient.run ceParse ceDecryptFail ceDecryptFailTrace).pending = []
  ∧ (RpcClient.run ceParse ceDecryptFail ceDecryptFailTrace).timers = []
  ∧ List.lookup "a".data
        (RpcClient.run ceParse ceDecryptFail ceDestroyTrace).settled
      = some Outcome.destroyed
  ∧ List.lookup "a".data
        (RpcClient.run ceParse ceDecryptFail ceConnectFailTrace).settled
      = some (Outcome.connectFailed "ECONNREFUSED".data) := by
  refine ⟨?_, ?_, ?_, ?_, ?_, ?_⟩ <;> decide

/-- Claim C2 as amended: every settlement a `call()` promise can receive
is one of the four specified forms — resolved value (possibly empty),
peer-reported RPC error, timeout error, connection-closed error — except
on the four paths the counterexamples exhibit: a `call()` whose awaited
`ensureConnected()` rejects is rejected with that raw connect error, a
`call()` whose `socket.write` throws is rejected with the raw write
error, `destroy()` rejects every pending call with the raw
`Error('Client destroyed')`, and a matched response whose result envelope
fails to decrypt removes the pending entry and cancels the timer without
settling the call at all.  Formally: over every event trace containing
none of the first three failure events, all settlements are of the four
allowed forms; and the decrypt-failure step is exactly
remove-entry-and-timer with no settlement. -/
theorem call_settlement_amended :
    (∀ (V : Type) (parse : JStr → Option RpcResponse)
        (decrypt : JStr → Option V) (events : List RpcClient.ClientEvent),
      (∀ e ∈ events, RpcClient.normalEvent e = true) →
      ∀ p ∈ (RpcClient.run parse decrypt events).settled,
        RpcClient.okOutcome p.2)
  ∧ (∀ (V : Type) (parse : JStr → Option RpcResponse)
        (decrypt : JStr → Option V) (s : RpcClient.ClientState V)
        (line : JStr) (r : RpcResponse) (env : JStr),
      trimChars line ≠ [] → parse line = some r → r.id ∈ s.pending →
      r.ok = true → RpcClient.truthyResult r.result = some env →
      decrypt env = none →
      RpcClient.processLine parse decrypt s line
        = { s with pending := s.pending.erase r.id,
                   timers := s.timers.erase r.id }) := by
  constructor
  · intro V parse decrypt events hw
    refine RpcClient.runFrom_settled_mem events _ hw ?_
    intro p hp
    exact absurd hp (List.not_mem_nil p)
  · intro V parse decrypt s line r env h1 h2 h3 h4 h5 h6
    simp [RpcClient.processLine, h1, h2, h3, h4, h5, h6]

/-- Witness for the amended C2: a concrete trace with a successful write
and a successfully decrypted response only produces allowed settlements,
and the concrete decrypt-failure line removes entry and timer without a
settlement. -/
theorem call_settlement_amended_witness :
    (∀ e ∈ ceDecryptFailTrace, RpcClient.normalEvent e = true)
  ∧ (∀ p ∈ (RpcClient.run ceParse wDecryptOk ceDecryptFailTrace).settled,
      RpcClient.okOutcome p.2)
  ∧ (trimChars "R".data ≠ []
     ∧ ceParse "R".data = some ⟨"a".data, true, some "E".data, none⟩
     ∧ RpcClient.processLine ceParse ceDecryptFail wStateC7 "R".data
        = { wStateC7 with pending := wStateC7.pending.erase "a".data,
                          timers := wStateC7.timers.erase "a".data }) :=
  ⟨by decide,
   call_settlement_amended.1 Nat ceParse wDecryptOk ceDecryptFailTrace (by decide),
   by decide, by decide,
   call_settlement_amended.2 Nat ceParse ceDecryptFail wStateC7 "R".data
     ⟨"a".data, true, some "E".data, none⟩ "E".data
     (by decide) (by decide) (by decide) rfl (by decide) rfl⟩

/-- Claim C4 is false on the code at a concrete input: the server framer
does not discard a malformed JSON line silently — feeding the single
non-JSON line `garbage` to a fresh connection produces one error response
on the stream, with id `'unknown'`, `ok: false`, and the parse error's
message. -/
theorem server_framer_not_silent :
    DhtServer.handleChunk ceParseReq ceServerApi [] "garbage\n".data
      = ([], [DhtServer.parseErrorResponse
          "Unexpected token g in JSON at position 0".data]) := by
  decide

/-- Claim C4 as amended: on the client framer a line that is not valid
JSON is discarded silently — the state is unchanged and every subsequent
line is processed exactly as if the corrupt line had not arrived; on the
server framer a line that is not valid JSON instead produces exactly one
`'unknown'` error response, after which every subsequent line on the same
stream is still processed normally.  On neither side does a corrupt line
block, poison, or terminate the stream. -/
theorem framer_malformed_line_amended :
    (∀ (V : Type) (parse : JStr → Option RpcResponse)
        (decrypt : JStr → Option V) (s : RpcClient.ClientState V) (line : JStr),
      trimChars line ≠ [] → parse line = none →
      RpcClient.processLine parse decrypt s line = s)
  ∧ (∀ (V : Type) (parse : JStr → Option RpcResponse)
        (decrypt : JStr → Option V) (s : RpcClient.ClientState V)
        (line : JStr) (rest : List JStr),
      trimChars line ≠ [] → parse line = none →
      RpcClient.processLines parse decrypt s (line :: rest)
        = RpcClient.processLines parse decrypt s rest)
  ∧ (∀ (P R : Type) (parseReq : JStr → Except JStr RpcRequest)
        (api : DhtServer.ServerApi P R) (out : List RpcResponse)
        (line msg : JStr) (rest : List JStr),
      trimChars line ≠ [] → parseReq (trimChars line) = Except.error msg →
      DhtServer.processLines parseReq api out (line :: rest)
        = DhtServer.processLines parseReq api
            (out ++ [DhtServer.parseErrorResponse msg]) rest) := by
  refine ⟨?_, ?_, ?_⟩
  · intro V parse decrypt s line h1 h2
    simp [RpcClient.processLine, h1, h2]
  · intro V parse decrypt s line rest h1 h2
    show RpcClient.processLines parse decrypt
      (RpcClient.processLine parse decrypt s line) rest = _
    rw [show RpcClient.processLine parse decrypt s line = s from by
      simp [RpcClient.processLine, h1, h2]]
  · intro P R parseReq api out line msg rest h1 h2
    show DhtServer.processLines parseReq api
      (DhtServer.processLine parseReq api out line) rest = _
    rw [show DhtServer.processLine parseReq api out line
        = out ++ [DhtServer.parseErrorResponse msg] from by
      simp [DhtServer.processLine, h1, h2]]

/-- Witness for the amended C4: the concrete non-JSON line `not json` is
dropped by the client framer with the state unchanged, and produces
exactly the `'unknown'` error response on the server framer. -/
theorem framer_malformed_line_amended_witness :
    (trimChars "not json".data ≠ [] ∧ ceParse "not json".data = none
     ∧ RpcClient.processLine ceParse wDecryptOk (RpcClient.initClient Nat)
         "not json".data = RpcClient.initClient Nat)
  ∧ (ceParseReq (trimChars "not json".data)
       = Except.error "Unexpected token g in JSON at position 0".data
     ∧ DhtServer.processLines ceParseReq ceServerApi [] ["not json".data]
        = DhtServer.processLines ceParseReq ceServerApi
            [DhtServer.parseErrorResponse
              "Unexpected token g in JSON at position 0".data] []) :=
  ⟨⟨by decide, by decide,
    framer_malformed_line_amended.1 Nat ceParse wDecryptOk
      (RpcClient.initClient Nat) "not json".data (by decide) (by decide)⟩,
   ⟨rfl,
    (by
      simpa using framer_malformed_line_amended.2.2 Unit Unit ceParseReq
        ceServerApi [] "not json".data
        "Unexpected token g in JSON at position 0".data [] (by decide) rfl)⟩⟩

/-- Claim C5: with two concurrent in-flight calls `A` and `B`, if the
responses arrive in the opposite order — `B`'s response line processed
before `A`'s — then the call that sent `A` resolves with `A`'s decrypted
result and the call that sent `B` resolves with `B`'s decrypted result:
matching is purely by request id, never by arrival order. -/
theorem correlator_matches_by_id {V : Type} (parse : JStr → Option RpcResponse)
    (decrypt : JStr → Option V) (s : RpcClient.ClientState V)
    (idA idB lineA lineB envA envB : JStr) (vA vB : V)
    (hne : idA ≠ idB)
    (hpA : idA ∈ s.pending) (hpB : idB ∈ s.pending)
    (hsA : List.lookup idA s.settled = none)
    (hsB : List.lookup idB s.settled = none)
    (htA : trimChars lineA ≠ []) (htB : trimChars lineB ≠ [])
    (hparseA : parse lineA = some ⟨idA, true, some envA, none⟩)
    (hparseB : parse lineB = some ⟨idB, true, some envB, none⟩)
    (heA : envA ≠ []) (heB : envB ≠ [])
    (hdA : decrypt envA = some vA) (hdB : decrypt envB = some vB) :
    List.lookup idA
        (RpcClient.processLines parse decrypt s [lineB, lineA]).settled
      = some (Outcome.value vA)
  ∧ List.lookup idB
        (RpcClient.processLines parse decrypt s [lineB, lineA]).settled
      = some (Outcome.value vB) := by
  have hstep1 : RpcClient.processLine parse decrypt s lineB
      = { s with pending := s.pending.erase idB, timers := s.timers.erase idB,
                 settled := s.settled ++ [(idB, Outcome.value vB)] } := by
    have hso := RpcClient.settleOnce_of_lookup_none (Outcome.value vB) hsB
    simp [RpcClient.processLine, htB, hparseB, hpB, RpcClient.truthyResult,
      heB, hdB, hso]
  have hpA1 : idA ∈ s.pending.erase idB := (List.mem_erase_of_ne hne).mpr hpA
  have hsA1 : List.lookup idA (s.settled ++ [(idB, Outcome.value vB)]) = none := by
    rw [lookup_append_of_none _ hsA]
    simp [List.lookup, beq_eq_false_iff_ne.mpr hne]
  have hlookB : List.lookup idB (s.settled ++ [(idB, Outcome.value vB)])
      = some (Outcome.value vB) := by
    rw [lookup_append_of_none _ hsB]
    simp [List.lookup]
  have hstep2 : RpcClient.processLine parse decrypt
      ({ s with pending := s.pending.erase idB, timers := s.timers.erase idB,
                settled := s.settled ++ [(idB, Outcome.value vB)] } :
        RpcClient.ClientState V) lineA
      = { s with pending := (s.pending.erase idB).erase idA,
                 timers := (s.timers.erase idB).erase idA,
                 settled := (s.settled ++ [(idB, Outcome.value vB)])
                   ++ [(idA, Outcome.value vA)] } := by
    have hso := RpcClient.settleOnce_of_lookup_none (Outcome.value vA) hsA1
    simp [RpcClient.processLine, htA, hparseA, hpA1, RpcClient.truthyResult,
      heA, hdA, hso]
  have hunfold : RpcClient.processLines parse decrypt s [lineB, lineA]
      = RpcClient.processLine parse decrypt
          (RpcClient.processLine parse decrypt s lineB) lineA := rfl
  rw [hunfold, hstep1, hstep2]
  constructor
  · rw [lookup_append_of_none _ hsA1]
    simp [List.lookup]
  · exact lookup_append_of_some _ hlookB

/-- Witness for C5: calls `A` and `B` in flight, response lines processed
in order `LB` then `LA`; `A` resolves with `1` and `B` with `2`. -/
theorem correlator_matches_by_id_witness :
    ("A".data ≠ "B".data
     ∧ "A".data ∈ wStateC5.pending ∧ "B".data ∈ wStateC5.pending
     ∧ wParseC5 "LA".data = some ⟨"A".data, true, some "eA".data, none⟩
     ∧ wParseC5 "LB".data = some ⟨"B".data, true, some "eB".data, none⟩
     ∧ wDecryptC5 "eA".data = some 1 ∧ wDecryptC5 "eB".data = some 2)
  ∧ List.lookup "A".data
      (RpcClient.processLines wParseC5 wDecryptC5 wStateC5
        ["LB".data, "LA".data]).settled = some (Outcome.value 1)
  ∧ List.lookup "B".data
      (RpcClient.processLines wParseC5 wDecryptC5 wStateC5
        ["LB".data, "LA".data]).settled = some (Outcome.value 2) :=
  ⟨⟨by decide, by decide, by decide, by decide, by decide, by decide, by decide⟩,
   (correlator_matches_by_id wParseC5 wDecryptC5 wStateC5 "A".data "B".data
     "LA".data "LB".data "eA".data "eB".data 1 2 (by decide) (by decide)
     (by decide) rfl rfl (by decide) (by decide) (by decide) (by decide)
     (by decide) (by decide) (by decide) (by decide)).1,
   (correlator_matches_by_id wParseC5 wDecryptC5 wStateC5 "A".data "B".data
     "LA".data "LB".data "eA".data "eB".data 1 2 (by decide) (by decide)
     (by decide) rfl rfl (by decide) (by decide) (by decide) (by decide)
     (by decide) (by decide) (by decide) (by decide)).2⟩

/-- Claim C7: when a call's timeout fires before a matching response is
processed, the call is settled with the timeout error and its pending
entry is removed in the same expiry step; a response carrying that id
arriving afterwards finds no entry and is ignored, so the call's
settlement remains the timeout error throughout any later events (request
ids are fresh per call, so no later `callStart` reuses the id). -/
theorem timeout_removes_pending {V : Type} (parse : JStr → Option RpcResponse)
    (decrypt : JStr → Option V) (s : RpcClient.ClientState V) (id : JStr)
    (hT : id ∈ s.timers) (hN : s.pending.Nodup)
    (hS : List.lookup id s.settled = none) :
    List.lookup id (RpcClient.step parse decrypt s
        (RpcClient.ClientEvent.timerFire id)).settled = some Outcome.timedOut
  ∧ id ∉ (RpcClient.step parse decrypt s
        (RpcClient.ClientEvent.timerFire id)).pending
  ∧ ∀ events : List RpcClient.ClientEvent,
      (∀ e ∈ events, RpcClient.notCallStartFor id e = true) →
      List.lookup id (RpcClient.runFrom parse decrypt
        (RpcClient.step parse decrypt s (RpcClient.ClientEvent.timerFire id))
        events).settled = some Outcome.timedOut := by
  have hstep : RpcClient.step parse decrypt s (RpcClient.ClientEvent.timerFire id)
      = { s with pending := s.pending.erase id, timers := s.timers.erase id,
                 settled := s.settled ++ [(id, Outcome.timedOut)] } := by
    simp [RpcClient.step, if_pos hT,
      RpcClient.settleOnce_of_lookup_none Outcome.timedOut hS]
  have hlook : List.lookup id (s.settled ++ [(id, Outcome.timedOut)])
      = some Outcome.timedOut := by
    rw [lookup_append_of_none _ hS]
    simp [List.lookup]
  refine ⟨?_, ?_, ?_⟩
  · rw [hstep]
    exact hlook
  · rw [hstep]
    exact hN.not_mem_erase
  · intro events he
    rw [hstep]
    exact RpcClient.runFrom_settled_persist events _ hlook

/-- Witness for C7: call `a`'s timeout fires, it settles with the timeout
error and leaves the pending map; the late matching response line `R`
arriving afterwards is ignored and the settlement stays the timeout
error. -/
theorem timeout_removes_pending_witness :
    ("a".data ∈ wStateC7.timers ∧ wStateC7.pending.Nodup
     ∧ List.lookup "a".data wStateC7.settled = none
     ∧ ∀ e ∈ wLateEvents, RpcClient.notCallStartFor "a".data e = true)
  ∧ List.lookup "a".data (RpcClient.step ceParse wDecryptOk wStateC7
      (RpcClient.ClientEvent.timerFire "a".data)).settled
      = some Outcome.timedOut
  ∧ List.lookup "a".data (RpcClient.runFrom ceParse wDecryptOk
      (RpcClient.step ceParse wDecryptOk wStateC7
        (RpcClient.ClientEvent.timerFire "a".data)) wLateEvents).settled
      = some Outcome.timedOut :=
  ⟨⟨by decide, by decide, rfl, by decide⟩,
   (timeout_removes_pending ceParse wDecryptOk wStateC7 "a".data
     (by decide) (by decide) rfl).1,
   (timeout_removes_pending ceParse wDecryptOk wStateC7 "a".data
     (by decide) (by decide) rfl).2.2 wLateEvents (by decide)⟩
